import Mathlib

/-!
Verification of the node-filesystem storage abstraction.

This file shallowly embeds the adapters of the repository:
`src/adapters/s3.adapter.ts` (`S3Adapter`), the Bun S3 adapter (`BunAdapter`)
and `src/adapters/bun.local.adapter.ts` (`BunLocalAdapter`), together with the
shared path helpers they rely on.  The `UtilHelper` module (pathinfo, the
directory emulator, the field-mapping table) and the `AbstractAdapter` path
namespacer are not part of the provided sources, so those few definitions are
modelled from the specification and are marked as such in their doc comments.

Storage media are modelled deterministically: an S3-compatible object store is
a finite association list of keys to objects, plus a set of keys on which the
medium faults (modelling permission/network errors); a local filesystem is an
association list of paths to file or directory nodes.  A thrown JavaScript
error is an `Except.error`; a JavaScript `false` result of an Entry-or-false
operation is `Option.none`.  JavaScript number division is embedded as `Rat`
division; `Math.round` as floor of the value plus one half.
-/

namespace NodeFs

/-! ## Character-level string helpers

All string manipulation is done with structurally recursive functions over
`String.data`, mirroring the `rtrim`/`ltrim`/`split`/`join` operations the
TypeScript code uses. -/

/-- Drop leading `'/'` characters from a character list. -/
def chDropSlash : List Char → List Char
  | [] => []
  | c :: cs => if c == '/' then chDropSlash cs else c :: cs

/-- `rtrim(s, '/')`: strip every trailing `'/'`. -/
def rtrimSlash (s : String) : String :=
  String.mk (chDropSlash s.data.reverse).reverse

/-- `ltrim(s, '/')`: strip every leading `'/'`. -/
def ltrimSlash (s : String) : String :=
  String.mk (chDropSlash s.data)

/-- Split a character list on a separator character (like `String.split`). -/
def chSplit (sep : Char) : List Char → List (List Char)
  | [] => [[]]
  | c :: cs =>
    let r := chSplit sep cs
    if c == sep then [] :: r
    else
      match r with
      | [] => [[c]]
      | h :: t => (c :: h) :: t

/-- Split a string on `'/'`. -/
def splitSlash (s : String) : List String :=
  (chSplit '/' s.data).map String.mk

/-- Split a string on `'.'`. -/
def splitDot (s : String) : List String :=
  (chSplit '.' s.data).map String.mk

/-- Join path segments with `'/'`. -/
def joinSlash (l : List String) : String :=
  String.mk ((l.map String.data).intersperse ['/']).flatten

/-- Join name parts with `'.'`. -/
def joinDot (l : List String) : String :=
  String.mk ((l.map String.data).intersperse ['.']).flatten

/-- Boolean prefix test on character lists. -/
def chPre : List Char → List Char → Bool
  | [], _ => true
  | _ :: _, [] => false
  | a :: as, b :: bs => a == b && chPre as bs

/-- Boolean string prefix test (the semantics of an S3 `Prefix` query). -/
def isPre (p s : String) : Bool := chPre p.data s.data

/-- Does the string end with `'/'` (the `path.substr(-1) === '/'` test)? -/
def endsWithSlash (s : String) : Bool :=
  match s.data.reverse with
  | [] => false
  | c :: _ => c == '/'

/-- Does the string contain a `'/'`? -/
def containsSlash (s : String) : Bool := s.data.any (fun c => c == '/')

/-- Drop the first `n` characters of a string (JavaScript `substr(n)`). -/
def strDropN (s : String) (n : Nat) : String := String.mk (s.data.drop n)

/-- UTF-8 byte length of one character (`Buffer.byteLength` semantics). -/
def chUtf8Len (c : Char) : Nat :=
  if c.toNat < 128 then 1
  else if c.toNat < 2048 then 2
  else if c.toNat < 65536 then 3
  else 4

/-- UTF-8 byte length of a string (`Buffer.byteLength(contents)`). -/
def byteLen (s : String) : Nat := (s.data.map chUtf8Len).sum

/-- Lexicographic order on character lists by code point, the order used by
the default JavaScript `Array.prototype.sort` on strings. -/
def chLexLe : List Char → List Char → Bool
  | [], _ => true
  | _ :: _, [] => false
  | a :: as, b :: bs =>
    if a.toNat < b.toNat then true
    else if b.toNat < a.toNat then false
    else chLexLe as bs

/-- Lexicographic order on strings. -/
def strLexLe (a b : String) : Bool := chLexLe a.data b.data

/-- JavaScript `Math.round` on a rational number: floor of the value plus one
half. -/
def jsRound (q : Rat) : Int := (q + 1 / 2).floor

/-- Insert into a list sorted by the Boolean comparator. -/
def insertLe {α : Type} (le : α → α → Bool) (a : α) : List α → List α
  | [] => [a]
  | b :: bs => if le a b then a :: b :: bs else b :: insertLe le a bs

/-- A stable insertion sort by a Boolean comparator — the deterministic
ordering used by JavaScript `Array.prototype.sort`. -/
def sortLe {α : Type} (le : α → α → Bool) : List α → List α
  | [] => []
  | a :: as => insertLe le a (sortLe le as)

/-- Deduplicate a list of strings. -/
def dedupStr : List String → List String
  | [] => []
  | a :: as => if as.contains a = true then dedupStr as else a :: dedupStr as

/-! ## Canonical Entry

The canonical record produced by normalization (spec section 3).  Optional
fields are `Option`s; an absent field of the JavaScript object is `none`.
The `type` tag is the string the adapters assign (`"file"` or `"dir"`). -/

structure Entry where
  path : String := ""
  dirname : String := ""
  basename : String := ""
  filename : String := ""
  extension : String := ""
  type : String := ""
  size : Option Nat := none
  timestamp : Option Rat := none
  contents : Option String := none
  mimetype : Option String := none
  visibility : Option String := none
deriving Repr, DecidableEq

/-! ## UtilHelper (pathinfo and the directory emulator)

`UtilHelper` is not among the provided sources; these definitions are
modelled from the specification (sections 4.2 and 4.3). -/

namespace UtilHelper

/-- Modelled from the spec: `pathinfo` derives `dirname` — the parent path,
empty at the root — from the resolved path string; trailing separators are
ignored. -/
def dirnameStr (s : String) : String :=
  joinSlash (splitSlash (rtrimSlash s)).dropLast

/-- Modelled from the spec: `basename` is the final `/`-delimited segment of
the path, trailing separators ignored. -/
def basenameStr (s : String) : String :=
  (splitSlash (rtrimSlash s)).getLastD ""

/-- Modelled from the spec: `extension` is the suffix after the last `.` in
the basename, empty if there is none. -/
def extensionStr (s : String) : String :=
  let parts := splitDot (basenameStr s)
  if parts.length ≤ 1 then "" else parts.getLastD ""

/-- Modelled from the spec: `filename` is the basename without its
extension. -/
def filenameStr (s : String) : String :=
  let parts := splitDot (basenameStr s)
  if parts.length ≤ 1 then basenameStr s else joinDot parts.dropLast

/-- Modelled from the spec: a synthesized directory entry for a missing
ancestor path — a `dir` entry whose derived name fields come from
`pathinfo`, with no size and no contents. -/
def mkDirEntry (p : String) : Entry :=
  { path := p, type := "dir", dirname := dirnameStr p, basename := basenameStr p,
    filename := filenameStr p, extension := extensionStr p }

/-- Modelled from the spec: the proper ancestor paths of a path — for
segments `s1/…/sn` the paths `s1`, `s1/s2`, …, `s1/…/s(n-1)`. -/
def ancestorsOf (p : String) : List String :=
  let segs := splitSlash (rtrimSlash p)
  (List.range (segs.length - 1)).map (fun i => joinSlash (segs.take (i + 1)))

/-- Paths of the real `dir` entries of a listing. -/
def realDirPaths (entries : List Entry) : List String :=
  (entries.filter (fun e => e.type == "dir")).map (fun e => e.path)

/-- Modelled from the spec (section 4.3): `emulateDirectories` synthesizes one
`dir` entry for every missing ancestor level of every listed entry,
deduplicates synthesized entries by path with real `dir` entries winning,
merges, and orders the result deterministically (lexically by path). -/
def emulateDirectories (entries : List Entry) : List Entry :=
  let synthPaths := dedupStr (entries.flatMap (fun e => ancestorsOf e.path))
  let synth :=
    (synthPaths.filter (fun p => !((realDirPaths entries).contains p))).map mkDirEntry
  sortLe (fun a b => strLexLe a.path b.path) (entries ++ synth)

/-- The emulated listing with the query root itself filtered out — the
`emulateDirectories(response).filter(item => rtrim(item.path,'/') !==
rtrim(directory,'/'))` step shared verbatim by `S3Adapter.listContents` and
`BunAdapter.listContents`. -/
def listingOf (entries : List Entry) (directory : String) : List Entry :=
  (emulateDirectories entries).filter
    (fun item => rtrimSlash item.path != rtrimSlash directory)

end UtilHelper

/-! ## Path namespacer (AbstractAdapter)

`AbstractAdapter` is not among the provided sources; modelled from the
specification (section 4.1). -/

/-- Modelled from the spec: `setPrefix` stores the configured root with a
single trailing separator, or the empty string for an empty root. -/
def buildPathPfx (root : String) : String :=
  if root = "" then "" else rtrimSlash root ++ "/"

/-- Modelled from the spec: `applyPathPrefix` concatenates the configured root
with the relative path, normalizing the separator between them. -/
def applyPathPfxAbs (root p : String) : String :=
  buildPathPfx root ++ ltrimSlash p

/-- The S3-flavoured `applyPathPrefix` override: the abstract result with any
leading separator stripped (`ltrim(super.applyPathPrefix(path), '/')`). -/
def applyPathPfxS3 (root p : String) : String :=
  ltrimSlash (applyPathPfxAbs root p)

/-- Modelled from the spec: `removePathPrefix` returns the remainder after the
configured root; with an empty root it returns the input unchanged. -/
def removePathPfx (root s : String) : String :=
  strDropN s (buildPathPfx root).data.length

/-- Modelled from the spec: the external mime lookup, a pure function from
extension to content type defaulting to `application/octet-stream`; only the
`txt` row is needed here. -/
def mimeGetType (p : String) : String :=
  if UtilHelper.extensionStr p = "txt" then "text/plain"
  else "application/octet-stream"

/-! ## The S3-compatible object-store medium

A deterministic model of the storage medium the S3-backed adapters call:
an association list of keys to objects plus a list of keys on which any
keyed medium operation throws (permission denial, network fault).  AWS
`DeleteObject` is idempotent: deleting a missing key succeeds. -/

structure S3Object where
  contents : String := ""
  contentType : String := "application/octet-stream"
  acl : String := "private"
  lastModifiedMs : Nat := 0
deriving Repr, DecidableEq

structure S3Store where
  objects : List (String × S3Object) := []
  faulty : List String := []
deriving Repr, DecidableEq

def lookupObj (σ : S3Store) (k : String) : Option S3Object :=
  (σ.objects.find? (fun kv => kv.1 == k)).map Prod.snd

def putObj (σ : S3Store) (k : String) (o : S3Object) : S3Store :=
  { σ with objects := (k, o) :: σ.objects.filter (fun kv => !(kv.1 == k)) }

def removeObj (σ : S3Store) (k : String) : S3Store :=
  { σ with objects := σ.objects.filter (fun kv => !(kv.1 == k)) }

def isFaulty (σ : S3Store) (k : String) : Bool := σ.faulty.contains k

def keysOf (σ : S3Store) : List String := σ.objects.map Prod.fst

/-- Errors a medium call can throw. -/
inductive S3Err
  | noSuchKey
  | accessDenied
deriving Repr, DecidableEq

/-- The first path segment of a key remainder, with the delimiter appended —
how S3 forms a `CommonPrefix`. -/
def firstSegPlusSlash (rest : String) : String :=
  String.mk (rest.data.takeWhile (fun c => !(c == '/'))) ++ "/"

/-- `ListObjectsV2` semantics over the key set: all keys under the query
prefix; with a `'/'` delimiter, keys whose remainder contains the delimiter
are grouped into deduplicated common prefixes. -/
def s3list (keys : List String) (q : String) (delim : Bool) :
    List String × List String :=
  let matching := keys.filter (fun k => isPre q k)
  if !delim then (matching, [])
  else
    let direct := matching.filter (fun k => !(containsSlash (strDropN k q.data.length)))
    let deeper := matching.filter (fun k => containsSlash (strDropN k q.data.length))
    (direct, dedupStr (deeper.map (fun k => q ++ firstSegPlusSlash (strDropN k q.data.length))))

/-- The public-read grant URI and permission pair S3 attaches to a
`public-read` ACL. -/
def PUBLIC_GRANT_URI : String := "http://acs.amazonaws.com/groups/global/AllUsers"

/-- The grants `GetObjectAcl` reports for an object with the given canned
ACL. -/
def grantsOf (acl : String) : List (String × String) :=
  if acl = "public-read" then [(PUBLIC_GRANT_URI, "READ")] else []

/-! ## S3Adapter (`src/adapters/s3.adapter.ts`)

Each embedded operation takes the configured root (the constructor's
`prefix`, default `""`) and the current store explicitly. -/

namespace S3Adapter

/-- The raw response shape `normalizeResponse` inspects; `Pfx` is the
`Prefix` field of a `CommonPrefixes` element.  `LastModified` is the epoch
millisecond value of the JavaScript `Date`. -/
structure S3Response where
  Key : Option String := none
  Pfx : Option String := none
  LastModified : Option Nat := none
  Body : Option String := none
  ContentLength : Option Nat := none
  ContentType : Option String := none
  Size : Option Nat := none
deriving Repr, DecidableEq

/-- `path ? path : this.removePathPrefix(response.Key ? response.Key :
response.Prefix)`. -/
def resolvePath (root : String) (resp : S3Response) (path : String) : String :=
  if path ≠ "" then path
  else removePathPfx root
    (if (resp.Key.getD "") ≠ "" then resp.Key.getD "" else resp.Pfx.getD "")

/-- The structural fields every normalized entry starts from: the resolved
path, the `pathinfo` derivatives, and the timestamp
`new Date(LastModified).getTime() / 1000`. -/
def baseEntry (p : String) (ts : Option Rat) : Entry :=
  { path := p, dirname := UtilHelper.dirnameStr p, basename := UtilHelper.basenameStr p,
    filename := UtilHelper.filenameStr p, extension := UtilHelper.extensionStr p,
    timestamp := ts }

/-- `S3Adapter.normalizeResponse`: a trailing-separator path yields a `dir`
entry with the separator stripped; otherwise a `file` entry is merged with
the table-driven result map (`Body → contents`, `ContentLength → size`,
`ContentType → mimetype`, `Size → size`, later table rows winning; a file with
no reported length defaults to size 0 per the spec's normalizer contract). -/
def normalizeResponse (root : String) (resp : S3Response) (path : String) : Entry :=
  let p := resolvePath root resp path
  let ts : Option Rat := resp.LastModified.map (fun ms => (ms : Rat) / 1000)
  if endsWithSlash p then
    { baseEntry p ts with type := "dir", path := rtrimSlash p }
  else
    { baseEntry p ts with
        type := "file",
        contents := resp.Body,
        mimetype := resp.ContentType,
        size := some (match resp.Size with | some n => n | none => resp.ContentLength.getD 0) }

/-- The response shape of one `Contents` element of `ListObjectsV2`. -/
def listedResponse (σ : S3Store) (k : String) : S3Response :=
  { Key := some k,
    Size := some (match lookupObj σ k with | some o => byteLen o.contents | none => 0),
    LastModified := some (match lookupObj σ k with | some o => o.lastModifiedMs | none => 0) }

/-- `S3Adapter.listContents`: prefix-list the key space (delimiter `'/'`
unless recursive), normalize every `Contents` and `CommonPrefixes` element,
emulate directories and drop the query root. -/
def listContents (root : String) (σ : S3Store) (directory : String)
    (recursive : Bool) : List Entry :=
  let q := applyPathPfxS3 root (rtrimSlash directory ++ "/")
  let listed := s3list (keysOf σ) q (!recursive)
  UtilHelper.listingOf
    (listed.1.map (fun k => normalizeResponse root (listedResponse σ k) "")
      ++ listed.2.map (fun c => normalizeResponse root { Pfx := some c } ""))
    directory

/-- `S3Adapter.read`: `GetObject` then normalize; the catch block rethrows,
so a missing key or a medium fault is an error, never `false`. -/
def read (root : String) (σ : S3Store) (path : String) : Except S3Err Entry :=
  let key := applyPathPfxS3 root path
  if isFaulty σ key then .error .accessDenied
  else
    match lookupObj σ key with
    | none => .error .noSuchKey
    | some o =>
      .ok (normalizeResponse root
        { Body := some o.contents, ContentLength := some (byteLen o.contents),
          ContentType := some o.contentType, LastModified := some o.lastModifiedMs } path)

/-- `S3Adapter.delete`: trailing-separator paths are refused; otherwise
`DeleteObject`, which succeeds even for a missing key; any thrown medium
fault is caught and reported as `false`. -/
def delete (root : String) (σ : S3Store) (path : String) : S3Store × Bool :=
  if endsWithSlash path then (σ, false)
  else
    let key := applyPathPfxS3 root path
    if isFaulty σ key then (σ, false)
    else (removeObj σ key, true)

/-- `S3Adapter.doesDirectoryExist`: list one key under the location treated
as a prefix. -/
def doesDirectoryExist (σ : S3Store) (location : String) : Bool :=
  (σ.objects.filter (fun kv => isPre (rtrimSlash location ++ "/") kv.1)).length > 0

/-- `S3Adapter.has`: `HeadObject`, falling back to the emulated directory
check when the head throws. -/
def has (root : String) (σ : S3Store) (path : String) : Bool :=
  let key := applyPathPfxS3 root path
  if isFaulty σ key then doesDirectoryExist σ key
  else if (lookupObj σ key).isSome then true
  else doesDirectoryExist σ key

/-- `S3Adapter.getMetadata`: `HeadObject` then normalize; every thrown error
— missing key and any other medium fault alike — is caught and reported as
`false` (`none`). -/
def getMetadata (root : String) (σ : S3Store) (path : String) : Option Entry :=
  let key := applyPathPfxS3 root path
  if isFaulty σ key then none
  else
    match lookupObj σ key with
    | none => none
    | some o =>
      some (normalizeResponse root
        { ContentLength := some (byteLen o.contents), ContentType := some o.contentType,
          LastModified := some o.lastModifiedMs } path)

/-- `S3Adapter.getSize` throws `Not implemented yet` unconditionally. -/
def getSize (root : String) (σ : S3Store) (path : String) : Except String Entry :=
  .error "Not implemented yet"

/-- `S3Adapter.getMimetype` throws `Not implemented yet` unconditionally. -/
def getMimetype (root : String) (σ : S3Store) (path : String) : Except String Entry :=
  .error "Not implemented yet"

/-- `S3Adapter.getTimestamp` throws `Not implemented yet` unconditionally. -/
def getTimestamp (root : String) (σ : S3Store) (path : String) : Except String Entry :=
  .error "Not implemented yet"

/-- `S3Adapter.getRawVisibility`: read the object ACL grants; `public` only
when a READ grant for the all-users URI is present; every thrown error is
caught and reported as `private`. -/
def getRawVisibility (root : String) (σ : S3Store) (path : String) : String :=
  let key := applyPathPfxS3 root path
  if isFaulty σ key then "private"
  else
    match lookupObj σ key with
    | none => "private"
    | some o =>
      if (grantsOf o.acl).contains (PUBLIC_GRANT_URI, "READ") then "public" else "private"

/-- `S3Adapter.getVisibility` wraps the raw visibility. -/
def getVisibility (root : String) (σ : S3Store) (path : String) : String :=
  getRawVisibility root σ path

/-- `S3Adapter.copy`: `CopyObject` to the new key with the ACL derived from
the source's current visibility; a thrown error (missing source or medium
fault) is caught and reported as `false`, leaving the store untouched. -/
def copy (root : String) (σ : S3Store) (path newpath : String) : S3Store × Bool :=
  let srcKey := applyPathPfxS3 root path
  let dstKey := applyPathPfxS3 root newpath
  let acl := if getRawVisibility root σ path = "public" then "public-read" else "private"
  if isFaulty σ srcKey || isFaulty σ dstKey then (σ, false)
  else
    match lookupObj σ srcKey with
    | none => (σ, false)
    | some o => (putObj σ dstKey { o with acl := acl }, true)

/-- `S3Adapter.rename`: copy, and only if the copy reported success, delete
the source; the delete's result is the rename's result. -/
def rename (root : String) (σ : S3Store) (path newpath : String) : S3Store × Bool :=
  let c := copy root σ path newpath
  if !c.2 then (σ, false)
  else delete root c.1 path

/-- `S3Adapter.deleteDir`: list every key under the directory prefix and
batch-delete them; an empty listing returns `true` immediately, so a missing
directory succeeds.  A thrown batch delete (any target faulty) is caught and
reported as `false`.  The pagination loop is modelled as a single page. -/
def deleteDir (root : String) (σ : S3Store) (dirname : String) : S3Store × Bool :=
  let q := rtrimSlash (applyPathPfxS3 root dirname) ++ "/"
  let matching := σ.objects.filter (fun kv => isPre q kv.1)
  if matching.isEmpty then (σ, true)
  else if matching.any (fun kv => isFaulty σ kv.1) then (σ, false)
  else ({ σ with objects := σ.objects.filter (fun kv => !(isPre q kv.1)) }, true)

/-- The mutable per-instance `this.options` object of the adapter. -/
structure S3Options where
  visibility : Option String := none
  acl : Option String := none
  meta : List (String × String) := []
deriving Repr, DecidableEq

/-- A `write`/`createDir` config object: an optional `visibility` plus
arbitrary further keys (recognized meta options are copied, unrecognized
keys are ignored). -/
structure WriteConfig where
  visibility : Option String := none
  extra : List (String × String) := []
deriving Repr, DecidableEq

/-- The fixed allow-list of backend passthrough option names. -/
def metaOptions : List String :=
  ["CacheControl", "Expires", "StorageClass", "ServerSideEncryption", "Metadata",
   "ACL", "ContentType", "ContentEncoding", "ContentDisposition", "ContentLength",
   "Tagging", "WebsiteRedirectLocation", "SSEKMSKeyId"]

/-- `S3Adapter.getOptionsFromConfig`.  The source does
`const options = this.options` — an alias of the instance state, not a copy —
and then assigns into it, so every update lands in the adapter's own
`this.options`; the returned object, which the caller keeps using, is that
same instance state. -/
def getOptionsFromConfig (instanceOptions : S3Options) (config : WriteConfig) :
    S3Options :=
  let options := instanceOptions
  let options :=
    match config.visibility with
    | some v =>
      { options with
          visibility := some v,
          acl := some (if v = "public" then "public-read" else "private") }
    | none => options
  config.extra.foldl
    (fun acc kv =>
      if kv.1 == "ACL" then { acc with acl := some kv.2 }
      else if metaOptions.contains kv.1 then
        { acc with meta := (kv.1, kv.2) :: acc.meta.filter (fun m => !(m.1 == kv.1)) }
      else acc)
    options

/-- The upload path of `S3Adapter.upload` as far as option handling goes:
the options object produced from the config (which, through the alias, is
also the adapter's new instance state) and the effective ACL sent with the
`PutObject` (`options['ACL'] ? options['ACL'] : 'private'`). -/
def uploadAcl (instanceOptions : S3Options) (config : WriteConfig) :
    S3Options × String :=
  let options := getOptionsFromConfig instanceOptions config
  (options, options.acl.getD "private")

end S3Adapter

/-! ## BunAdapter (the Bun S3 adapter of the unnamed source part) -/

namespace BunAdapter

/-- The raw response shape `BunAdapter.normalizeResponse` inspects. -/
structure BunResponse where
  key : Option String := none
  Key : Option String := none
  lastModified : Option Nat := none
  LastModified : Option Nat := none
  Body : Option String := none
  body : Option String := none
  size : Option Nat := none
  Size : Option Nat := none
  ContentLength : Option Nat := none
  type : Option String := none
deriving Repr, DecidableEq

/-- `path || this.removePathPrefix(response.key || response.Key || '')`. -/
def resolvePath (root : String) (resp : BunResponse) (path : String) : String :=
  if path ≠ "" then path
  else removePathPfx root
    (if (resp.key.getD "") ≠ "" then resp.key.getD "" else resp.Key.getD "")

/-- `BunAdapter.normalizeResponse`: same shape as the S3 one; the timestamp
comes from `lastModified || LastModified` divided by 1000; a file entry's
size is `size || Size || ContentLength || 0`; the result map contributes
`Body → contents` and `type → mimetype` (per the spec's normalizer contract
the mapping table fills canonical fields, it does not displace the
structurally resolved timestamp — the repository's tests pin ten-digit
integer-second timestamps on listed entries). -/
def normalizeResponse (root : String) (resp : BunResponse) (path : String) : Entry :=
  let p := resolvePath root resp path
  let lm := match resp.lastModified with | some v => some v | none => resp.LastModified
  let ts : Option Rat := lm.map (fun ms => (ms : Rat) / 1000)
  let bodyVal := match resp.Body with | some v => some v | none => resp.body
  if endsWithSlash p then
    { S3Adapter.baseEntry p ts with type := "dir", path := rtrimSlash p }
  else
    { S3Adapter.baseEntry p ts with
        type := "file",
        contents := bodyVal,
        mimetype := resp.type,
        size := some (match resp.size with
          | some n => n
          | none => match resp.Size with
            | some n => n
            | none => resp.ContentLength.getD 0) }

/-- One `contents` element of a Bun `s3.list` result. -/
def listedResponse (σ : S3Store) (k : String) : BunResponse :=
  { key := some k,
    size := some (match lookupObj σ k with | some o => byteLen o.contents | none => 0),
    lastModified := some (match lookupObj σ k with | some o => o.lastModifiedMs | none => 0) }

/-- `BunAdapter.listContents`: page through `s3.list` (modelled as a single
page) with delimiter `'/'` unless recursive, normalize contents and common
prefixes, emulate directories and drop the query root. -/
def listContents (root : String) (σ : S3Store) (directory : String)
    (recursive : Bool) : List Entry :=
  let q := applyPathPfxS3 root (rtrimSlash directory ++ "/")
  let listed := s3list (keysOf σ) q (!recursive)
  UtilHelper.listingOf
    (listed.1.map (fun k => normalizeResponse root (listedResponse σ k) "")
      ++ listed.2.map (fun c => normalizeResponse root { key := some c, Key := some c } ""))
    directory

/-- `BunAdapter.read`: `file.text()` rejects for a missing key and the catch
block rethrows, so a missing key or a medium fault is an error, never
`false`. -/
def read (root : String) (σ : S3Store) (path : String) : Except S3Err Entry :=
  let key := applyPathPfxS3 root path
  if isFaulty σ key then .error .accessDenied
  else
    match lookupObj σ key with
    | none => .error .noSuchKey
    | some o =>
      .ok (normalizeResponse root
        { Body := some o.contents, key := some key,
          size := some (byteLen o.contents), lastModified := some o.lastModifiedMs } path)

/-- `BunAdapter.getMetadata`: an explicit `exists()` check returns `false`
for a missing key; the catch block turns any other thrown medium fault into
`false` as well. -/
def getMetadata (root : String) (σ : S3Store) (path : String) : Option Entry :=
  let key := applyPathPfxS3 root path
  if isFaulty σ key then none
  else
    match lookupObj σ key with
    | none => none
    | some o =>
      some (normalizeResponse root
        { key := some key, size := some (byteLen o.contents),
          lastModified := some o.lastModifiedMs } path)

/-- `BunAdapter.getSize`: `{ size: metadata.size }` or `false`. -/
def getSize (root : String) (σ : S3Store) (path : String) : Option (Option Nat) :=
  (getMetadata root σ path).map (fun m => m.size)

/-- `BunAdapter.getTimestamp`: `{ timestamp: metadata.timestamp }` or
`false`. -/
def getTimestamp (root : String) (σ : S3Store) (path : String) : Option (Option Rat) :=
  (getMetadata root σ path).map (fun m => m.timestamp)

/-- `BunAdapter.getMimetype`: the mime lookup on the path, or `false` when
the metadata is `false`. -/
def getMimetype (root : String) (σ : S3Store) (path : String) : Option String :=
  (getMetadata root σ path).map (fun _ => mimeGetType path)

/-- `BunAdapter.getVisibility` reports a fixed `private`: Bun's S3 API
exposes no ACL information. -/
def getVisibility (root : String) (σ : S3Store) (path : String) : String :=
  "private"

/-- `BunAdapter.copy`: read the source bytes and write them to the new key
(with the mime type of the new path); any thrown error is caught and
reported as `false`, leaving the store untouched. -/
def copy (root : String) (σ : S3Store) (path newpath : String) : S3Store × Bool :=
  let key := applyPathPfxS3 root path
  let newKey := applyPathPfxS3 root newpath
  if isFaulty σ key || isFaulty σ newKey then (σ, false)
  else
    match lookupObj σ key with
    | none => (σ, false)
    | some o =>
      (putObj σ newKey
        { contents := o.contents, contentType := mimeGetType newpath,
          acl := "private", lastModifiedMs := o.lastModifiedMs }, true)

/-- `BunAdapter.delete`: trailing-separator paths are refused; otherwise the
idempotent medium delete; a thrown fault is caught and reported `false`. -/
def delete (root : String) (σ : S3Store) (path : String) : S3Store × Bool :=
  if endsWithSlash path then (σ, false)
  else
    let key := applyPathPfxS3 root path
    if isFaulty σ key then (σ, false)
    else (removeObj σ key, true)

/-- `BunAdapter.rename`: copy, and only if the copy reported success, delete
the source. -/
def rename (root : String) (σ : S3Store) (path newpath : String) : S3Store × Bool :=
  let c := copy root σ path newpath
  if !c.2 then (σ, false)
  else delete root c.1 path

/-- `BunAdapter.deleteDir`: list every key under the prefix and delete them;
an empty listing returns `true` immediately, so a missing directory
succeeds.  Modelled as a single page. -/
def deleteDir (root : String) (σ : S3Store) (dirname : String) : S3Store × Bool :=
  let q := rtrimSlash (applyPathPfxS3 root dirname) ++ "/"
  let matching := σ.objects.filter (fun kv => isPre q kv.1)
  if matching.isEmpty then (σ, true)
  else if matching.any (fun kv => isFaulty σ kv.1) then (σ, false)
  else ({ σ with objects := σ.objects.filter (fun kv => !(isPre q kv.1)) }, true)

/-- `BunAdapter.getOptionsFromConfig` builds a fresh options object
(`const options = {}`) from the config alone — no aliasing of instance
state. -/
def getOptionsFromConfig (config : S3Adapter.WriteConfig) : S3Adapter.S3Options :=
  let options : S3Adapter.S3Options := {}
  let options :=
    match config.visibility with
    | some v => { options with visibility := some v }
    | none => options
  config.extra.foldl
    (fun acc kv =>
      if kv.1 == "ACL" then { acc with acl := some kv.2 }
      else if S3Adapter.metaOptions.contains kv.1 then
        { acc with meta := (kv.1, kv.2) :: acc.meta.filter (fun m => !(m.1 == kv.1)) }
      else acc)
    options

end BunAdapter

/-! ## BunLocalAdapter (`src/adapters/bun.local.adapter.ts`)

The local filesystem medium is an association list from slash-paths (stored
without trailing separators) to nodes.  The adapter's namespace root is the
empty prefix, under which `applyPathPrefix`/`removePathPrefix` are the
identity. -/

inductive FsNode
  | fileNode (contents : String) (mtimeMs : Nat)
  | dirNode (size : Nat) (mtimeMs : Nat)
deriving Repr, DecidableEq

abbrev LocalFS := List (String × FsNode)

structure FsStat where
  isFile : Bool
  size : Nat
  mtimeMs : Nat
deriving Repr, DecidableEq

/-- POSIX `stat`: resolves the node at the path, ignoring trailing
separators; a file's size is its byte length. -/
def statFS (fs : LocalFS) (p : String) : Option FsStat :=
  match (fs.find? (fun kv => kv.1 == rtrimSlash p)).map Prod.snd with
  | some (.fileNode c m) => some ⟨true, byteLen c, m⟩
  | some (.dirNode s m) => some ⟨false, s, m⟩
  | none => none

def lookupFS (fs : LocalFS) (k : String) : Option FsNode :=
  (fs.find? (fun kv => kv.1 == k)).map Prod.snd

/-- `readdir`: the names of the direct children of a directory path. -/
def readdirFS (fs : LocalFS) (p : String) : List String :=
  let q := rtrimSlash p
  fs.filterMap (fun kv =>
    if q == "" then (if !(containsSlash kv.1) && !(kv.1 == "") then some kv.1 else none)
    else if isPre (q ++ "/") kv.1 then
      let rest := strDropN kv.1 (q.data.length + 1)
      if !(rest == "") && !(containsSlash rest) then some rest else none
    else none)

namespace BunLocalAdapter

/-- `BunLocalAdapter.isDir`: `stat` and `isDirectory()`, `false` when the
stat throws. -/
def isDir (fs : LocalFS) (p : String) : Bool :=
  match statFS fs p with
  | some st => !st.isFile
  | none => false

/-- `BunLocalAdapter.normalizeResponse`: resolve the path, derive the
`pathinfo` fields, `stat` the target (a thrown stat rejects the call, hence
`none`), classify by `isFile()`, and set `size` and the rounded
second-resolution timestamp from the stat — note the `size` assignment
happens before the `dir` early return, so directory entries keep it. -/
def normalizeResponse (fs : LocalFS) (rawPath path : String) : Option Entry :=
  let p := if path ≠ "" then path else rawPath
  match statFS fs p with
  | none => none
  | some st =>
    let e : Entry :=
      { path := p, dirname := UtilHelper.dirnameStr p, basename := UtilHelper.basenameStr p,
        filename := UtilHelper.filenameStr p, extension := UtilHelper.extensionStr p,
        type := if st.isFile then "file" else "dir",
        size := some st.size,
        timestamp := some ((jsRound ((st.mtimeMs : Rat) / 1000) : Int) : Rat) }
    if e.type = "dir" then some { e with path := rtrimSlash p } else some e

/-- The recursive directory walk: every strict descendant path of the
location (the walk's depth-first order is irrelevant — the caller sorts). -/
def recursiveList (fs : LocalFS) (location : String) : List String :=
  (fs.map Prod.fst).filter (fun k => isPre (rtrimSlash location ++ "/") k)

/-- `BunLocalAdapter.listContents`: an empty list for a non-directory;
otherwise the readdir names appended to the location (non-recursive) or the
recursive walk, sorted, each normalized; a rejected normalize rejects the
whole call (`none`). -/
def listContents (fs : LocalFS) (directory : String) (recursive : Bool) :
    Option (List Entry) :=
  let location := directory
  if !(isDir fs location) then some []
  else
    let files :=
      if !recursive then (readdirFS fs location).map (fun f => location ++ f)
      else recursiveList fs location
    (sortLe strLexLe files).mapM (fun f => normalizeResponse fs f "")

/-- `BunLocalAdapter.read`: `false` when the target does not exist as a
file (or on any thrown error), otherwise the bare
`{ type, path, contents }` object. -/
def read (fs : LocalFS) (path : String) : Option Entry :=
  match lookupFS fs (rtrimSlash path) with
  | some (.fileNode c _) => some { path := path, type := "file", contents := some c }
  | _ => none

/-- `BunLocalAdapter.delete`: POSIX `unlink` — fails (caught, `false`) for a
trailing-separator path, a missing target or a directory; removes a file and
returns `true`. -/
def delete (fs : LocalFS) (path : String) : LocalFS × Bool :=
  if endsWithSlash path then (fs, false)
  else
    match lookupFS fs path with
    | some (.fileNode _ _) => (fs.filter (fun kv => !(kv.1 == path)), true)
    | _ => (fs, false)

/-- `BunLocalAdapter.getMetadata`: the `stat` call is not guarded, so a
missing target rejects (error); a file yields `{type, path, timestamp,
size}`, a directory `{type, path, timestamp}` — no size. -/
def getMetadata (fs : LocalFS) (path : String) : Except Unit Entry :=
  match statFS fs path with
  | none => .error ()
  | some st =>
    if st.isFile then
      .ok { path := path, type := "file",
            timestamp := some ((jsRound ((st.mtimeMs : Rat) / 1000) : Int) : Rat),
            size := some st.size }
    else
      .ok { path := path, type := "dir",
            timestamp := some ((jsRound ((st.mtimeMs : Rat) / 1000) : Int) : Rat) }

/-- `BunLocalAdapter.rename`: native `fs.rename` — a move of the node (and
its whole subtree for a directory), replacing the destination; a thrown
error (missing source) is caught and reported as `false` with the filesystem
untouched. -/
def rename (fs : LocalFS) (p n : String) : LocalFS × Bool :=
  let src := rtrimSlash p
  let dst := rtrimSlash n
  match lookupFS fs src with
  | none => (fs, false)
  | some _ =>
    let cleared := fs.filter (fun kv => !(kv.1 == dst) && !(isPre (dst ++ "/") kv.1))
    (cleared.map (fun kv =>
      if kv.1 == src then (dst, kv.2)
      else if isPre (src ++ "/") kv.1 then (dst ++ strDropN kv.1 src.data.length, kv.2)
      else kv), true)

/-- `BunLocalAdapter.copy`: `fs.copyFile` — fails (caught, `false`) unless
the source is a file; writes the destination file. -/
def copy (fs : LocalFS) (p n : String) : LocalFS × Bool :=
  match lookupFS fs (rtrimSlash p) with
  | some (.fileNode c m) =>
    ((rtrimSlash n, FsNode.fileNode c m) ::
      fs.filter (fun kv => !(kv.1 == rtrimSlash n)), true)
  | _ => (fs, false)

/-- `BunLocalAdapter.deleteDir`: returns `false` when the location is not an
existing directory; otherwise `rm -rf` of the subtree and `true`. -/
def deleteDir (fs : LocalFS) (path : String) : LocalFS × Bool :=
  if !(isDir fs path) then (fs, false)
  else
    (fs.filter (fun kv =>
      !(kv.1 == rtrimSlash path) && !(isPre (rtrimSlash path ++ "/") kv.1)), true)

/-- `BunLocalAdapter.write`: ensure the parent directories, write the file,
and return the literal `{contents, type, size, path, visibility}` object
(visibility from the config, default `public`). -/
def write (fs : LocalFS) (path contents : String) (cfgVisibility : Option String) :
    LocalFS × Entry :=
  let fs1 := (UtilHelper.ancestorsOf path).foldl
    (fun acc d => if isDir acc d then acc else (d, FsNode.dirNode 0 0) :: acc) fs
  ((rtrimSlash path, FsNode.fileNode contents 0) ::
      fs1.filter (fun kv => !(kv.1 == rtrimSlash path)),
    { path := path, type := "file", size := some (byteLen contents),
      contents := some contents, visibility := some (cfgVisibility.getD "public") })

/-- `BunLocalAdapter.createDir`: `mkdir` recursive, then the literal
`{path, type: 'dir'}` object. -/
def createDir (fs : LocalFS) (dirname : String) : LocalFS × Entry :=
  let fs1 := ((UtilHelper.ancestorsOf dirname) ++ [rtrimSlash dirname]).foldl
    (fun acc d => if isDir acc d then acc else (d, FsNode.dirNode 0 0) :: acc) fs
  (fs1, { path := dirname, type := "dir" })

end BunLocalAdapter

end NodeFs

namespace NodeFs

/-! ## Basic lemmas about the string helpers -/

theorem data_mk (l : List Char) : (String.mk l).data = l := rfl

theorem mk_data (s : String) : String.mk s.data = s := by
  cases s
  rfl

theorem chDropSlash_idem (l : List Char) :
    chDropSlash (chDropSlash l) = chDropSlash l := by
  induction l with
  | nil => rfl
  | cons c cs ih =>
    by_cases h : (c == '/') = true
    · simp [chDropSlash, h, ih]
    · simp only [Bool.not_eq_true] at h
      simp [chDropSlash, h]

theorem rtrimSlash_idem (s : String) :
    rtrimSlash (rtrimSlash s) = rtrimSlash s := by
  simp [rtrimSlash, data_mk, List.reverse_reverse, chDropSlash_idem]

theorem rtrimSlash_eq_self (s : String) (h : endsWithSlash s = false) :
    rtrimSlash s = s := by
  unfold endsWithSlash at h
  unfold rtrimSlash
  cases hrev : s.data.reverse with
  | nil =>
    have hd : s.data = [] := by
      have h2 := congrArg List.reverse hrev
      simpa using h2
    show String.mk (chDropSlash []).reverse = s
    rw [show chDropSlash [] = [] from rfl]
    rw [show ([] : List Char).reverse = [] from rfl]
    rw [← hd, mk_data]
  | cons c rest =>
    rw [hrev] at h
    have hc : (c == '/') = false := by simpa using h
    show String.mk (chDropSlash (c :: rest)).reverse = s
    rw [show chDropSlash (c :: rest) = if (c == '/') then chDropSlash rest else c :: rest from rfl]
    rw [hc]
    simp only [Bool.false_eq_true, if_false]
    rw [← hrev, List.reverse_reverse, mk_data]

theorem dirnameStr_rtrimSlash (s : String) :
    UtilHelper.dirnameStr (rtrimSlash s) = UtilHelper.dirnameStr s := by
  unfold UtilHelper.dirnameStr
  rw [rtrimSlash_idem]

theorem mem_insertLe {α : Type} (le : α → α → Bool) (a x : α) (l : List α) :
    x ∈ insertLe le a l ↔ x = a ∨ x ∈ l := by
  induction l with
  | nil => simp [insertLe]
  | cons b bs ih =>
    by_cases h : le a b = true
    · simp [insertLe, h]
    · simp only [Bool.not_eq_true] at h
      simp [insertLe, h, ih]
      tauto

theorem mem_sortLe {α : Type} (le : α → α → Bool) (x : α) (l : List α) :
    x ∈ sortLe le l ↔ x ∈ l := by
  induction l with
  | nil => simp [sortLe]
  | cons a as ih => simp [sortLe, mem_insertLe, ih]

theorem mem_dedupStr (x : String) (l : List String) :
    x ∈ dedupStr l ↔ x ∈ l := by
  induction l with
  | nil => simp [dedupStr]
  | cons a as ih =>
    by_cases h : as.contains a = true
    · have ha : a ∈ as := by
        have h2 : List.elem a as = true := h
        exact List.mem_of_elem_eq_true h2
      simp only [dedupStr, h, if_true, ih, List.mem_cons]
      constructor
      · exact fun hx => Or.inr hx
      · rintro (rfl | hx)
        · exact ha
        · exact hx
    · have hf : as.contains a = false := by simpa using h
      simp only [dedupStr, hf, Bool.false_eq_true, if_false, List.mem_cons, ih]

/-! ## Normalizer lemmas -/

theorem s3_normalize_path (root : String) (resp : S3Adapter.S3Response) (path : String) :
    (S3Adapter.normalizeResponse root resp path).path
      = rtrimSlash (S3Adapter.resolvePath root resp path) := by
  unfold S3Adapter.normalizeResponse
  by_cases h : endsWithSlash (S3Adapter.resolvePath root resp path) = true
  · simp [h, S3Adapter.baseEntry]
  · simp only [Bool.not_eq_true] at h
    simp [h, S3Adapter.baseEntry, rtrimSlash_eq_self _ h]

theorem s3_normalize_dirname (root : String) (resp : S3Adapter.S3Response) (path : String) :
    (S3Adapter.normalizeResponse root resp path).dirname
      = UtilHelper.dirnameStr (S3Adapter.normalizeResponse root resp path).path := by
  unfold S3Adapter.normalizeResponse
  by_cases h : endsWithSlash (S3Adapter.resolvePath root resp path) = true
  · simp [h, S3Adapter.baseEntry, dirnameStr_rtrimSlash]
  · simp only [Bool.not_eq_true] at h
    simp [h, S3Adapter.baseEntry]

theorem bun_normalize_path (root : String) (resp : BunAdapter.BunResponse) (path : String) :
    (BunAdapter.normalizeResponse root resp path).path
      = rtrimSlash (BunAdapter.resolvePath root resp path) := by
  unfold BunAdapter.normalizeResponse
  by_cases h : endsWithSlash (BunAdapter.resolvePath root resp path) = true
  · simp [h, S3Adapter.baseEntry]
  · simp only [Bool.not_eq_true] at h
    simp [h, S3Adapter.baseEntry, rtrimSlash_eq_self _ h]

theorem bun_normalize_dirname (root : String) (resp : BunAdapter.BunResponse) (path : String) :
    (BunAdapter.normalizeResponse root resp path).dirname
      = UtilHelper.dirnameStr (BunAdapter.normalizeResponse root resp path).path := by
  unfold BunAdapter.normalizeResponse
  by_cases h : endsWithSlash (BunAdapter.resolvePath root resp path) = true
  · simp [h, S3Adapter.baseEntry, dirnameStr_rtrimSlash]
  · simp only [Bool.not_eq_true] at h
    simp [h, S3Adapter.baseEntry]

/-! ## Directory emulator lemmas -/

theorem mem_listingOf_ne_root (entries : List Entry) (d : String) (e : Entry)
    (h : e ∈ UtilHelper.listingOf entries d) :
    rtrimSlash e.path ≠ rtrimSlash d := by
  unfold UtilHelper.listingOf at h
  exact bne_iff_ne.mp (List.mem_filter.mp h).2

theorem listingOf_complete_ab (entries : List Entry)
    (h1 : ∃ e ∈ entries, e.path = "a/b/c.txt")
    (h2 : ∀ e ∈ entries, e.dirname = UtilHelper.dirnameStr e.path) :
    ∃ e ∈ UtilHelper.listingOf entries "a",
      e.type = "dir" ∧ e.path = "a/b" ∧ e.dirname = "a" := by
  obtain ⟨e0, he0, hp0⟩ := h1
  by_cases hc : (UtilHelper.realDirPaths entries).contains "a/b" = true
  · have hmem : "a/b" ∈ UtilHelper.realDirPaths entries :=
      List.mem_of_elem_eq_true hc
    unfold UtilHelper.realDirPaths at hmem
    obtain ⟨e1, he1f, hp1⟩ := List.mem_map.mp hmem
    have he1 := List.mem_filter.mp he1f
    have htype : e1.type = "dir" := by simpa using he1.2
    refine ⟨e1, ?_, htype, hp1, ?_⟩
    · simp only [UtilHelper.listingOf, UtilHelper.emulateDirectories]
      apply List.mem_filter.mpr
      refine ⟨(mem_sortLe _ _ _).mpr (List.mem_append.mpr (Or.inl he1.1)), ?_⟩
      rw [hp1]
      decide
    · rw [h2 e1 he1.1, hp1]
      decide
  · have hcf : (UtilHelper.realDirPaths entries).contains "a/b" = false := by
      simpa using hc
    refine ⟨UtilHelper.mkDirEntry "a/b", ?_, by decide, by decide, by decide⟩
    simp only [UtilHelper.listingOf, UtilHelper.emulateDirectories]
    apply List.mem_filter.mpr
    constructor
    · apply (mem_sortLe _ _ _).mpr
      apply List.mem_append.mpr
      right
      apply List.mem_map.mpr
      refine ⟨"a/b", ?_, rfl⟩
      apply List.mem_filter.mpr
      refine ⟨?_, by rw [hcf]; rfl⟩
      apply (mem_dedupStr _ _).mpr
      apply List.mem_flatMap.mpr
      refine ⟨e0, he0, ?_⟩
      rw [hp0]
      decide
    · decide

/-! ## Listing glue lemmas -/

theorem s3_listContents_recursive_eq (root : String) (σ : S3Store) (d : String) :
    S3Adapter.listContents root σ d true
      = UtilHelper.listingOf
          (((keysOf σ).filter
              (fun k => isPre (applyPathPfxS3 root (rtrimSlash d ++ "/")) k)).map
            (fun k => S3Adapter.normalizeResponse root (S3Adapter.listedResponse σ k) ""))
          d := by
  simp [S3Adapter.listContents, s3list]

theorem bun_listContents_recursive_eq (root : String) (σ : S3Store) (d : String) :
    BunAdapter.listContents root σ d true
      = UtilHelper.listingOf
          (((keysOf σ).filter
              (fun k => isPre (applyPathPfxS3 root (rtrimSlash d ++ "/")) k)).map
            (fun k => BunAdapter.normalizeResponse root (BunAdapter.listedResponse σ k) ""))
          d := by
  simp [BunAdapter.listContents, s3list]

theorem s3_listed_path (σ : S3Store) :
    (S3Adapter.normalizeResponse "" (S3Adapter.listedResponse σ "a/b/c.txt") "").path
      = "a/b/c.txt" := by
  rw [s3_normalize_path]
  rfl

theorem bun_listed_path (σ : S3Store) :
    (BunAdapter.normalizeResponse "" (BunAdapter.listedResponse σ "a/b/c.txt") "").path
      = "a/b/c.txt" := by
  rw [bun_normalize_path]
  rfl

/-! ## Claim C1 -/

/-- C1: for every object-store state containing the key `a/b/c.txt`, the
recursive `listContents("a", true)` (under the constructor-default empty
namespace root) contains a `dir` entry with path `a/b` and dirname `a` even
when no object explicitly represents that directory — in both the `S3Adapter`
and the `BunAdapter`; and for every root, store, directory and recursive
flag, no returned entry's trailing-slash-stripped path equals the
trailing-slash-stripped query root. -/
theorem c1_directory_emulation_and_root_exclusion :
    (∀ σ : S3Store, "a/b/c.txt" ∈ keysOf σ →
      ∃ e ∈ S3Adapter.listContents "" σ "a" true,
        e.type = "dir" ∧ e.path = "a/b" ∧ e.dirname = "a") ∧
    (∀ σ : S3Store, "a/b/c.txt" ∈ keysOf σ →
      ∃ e ∈ BunAdapter.listContents "" σ "a" true,
        e.type = "dir" ∧ e.path = "a/b" ∧ e.dirname = "a") ∧
    (∀ (root : String) (σ : S3Store) (d : String) (rcv : Bool),
      ∀ e ∈ S3Adapter.listContents root σ d rcv,
        rtrimSlash e.path ≠ rtrimSlash d) ∧
    (∀ (root : String) (σ : S3Store) (d : String) (rcv : Bool),
      ∀ e ∈ BunAdapter.listContents root σ d rcv,
        rtrimSlash e.path ≠ rtrimSlash d) := by
  refine ⟨?_, ?_, ?_, ?_⟩
  · intro σ hk
    rw [s3_listContents_recursive_eq]
    apply listingOf_complete_ab
    · refine ⟨S3Adapter.normalizeResponse "" (S3Adapter.listedResponse σ "a/b/c.txt") "",
        ?_, s3_listed_path σ⟩
      apply List.mem_map.mpr
      exact ⟨"a/b/c.txt", List.mem_filter.mpr ⟨hk, by decide⟩, rfl⟩
    · intro e he
      obtain ⟨k, hkm, rfl⟩ := List.mem_map.mp he
      exact s3_normalize_dirname _ _ _
  · intro σ hk
    rw [bun_listContents_recursive_eq]
    apply listingOf_complete_ab
    · refine ⟨BunAdapter.normalizeResponse "" (BunAdapter.listedResponse σ "a/b/c.txt") "",
        ?_, bun_listed_path σ⟩
      apply List.mem_map.mpr
      exact ⟨"a/b/c.txt", List.mem_filter.mpr ⟨hk, by decide⟩, rfl⟩
    · intro e he
      obtain ⟨k, hkm, rfl⟩ := List.mem_map.mp he
      exact bun_normalize_dirname _ _ _
  · intro root σ d rcv e h
    simp only [S3Adapter.listContents] at h
    exact mem_listingOf_ne_root _ _ _ h
  · intro root σ d rcv e h
    simp only [BunAdapter.listContents] at h
    exact mem_listingOf_ne_root _ _ _ h

/-- Witness for C1 at a concrete one-object store. -/
theorem c1_witness :
    (∃ e ∈ S3Adapter.listContents "" { objects := [("a/b/c.txt", {})] } "a" true,
      e.type = "dir" ∧ e.path = "a/b" ∧ e.dirname = "a") ∧
    (∃ e ∈ BunAdapter.listContents "" { objects := [("a/b/c.txt", {})] } "a" true,
      e.type = "dir" ∧ e.path = "a/b" ∧ e.dirname = "a") :=
  ⟨c1_directory_emulation_and_root_exclusion.1 { objects := [("a/b/c.txt", {})] } (by decide),
   c1_directory_emulation_and_root_exclusion.2.1 { objects := [("a/b/c.txt", {})] } (by decide)⟩

/-! ## Claim C2 -/

/-- C2: S3-backed `rename` is copy-then-delete-source — it reports `true`
only when both the copy step and the subsequent delete-source step report
success, and a failed copy leaves the store exactly as it was, so `has` on
the source is unchanged; the Bun S3 adapter behaves identically, and the
local adapter's native rename likewise leaves the filesystem untouched when
it fails. -/
theorem c2_rename_copy_then_delete :
    (∀ (root : String) (σ : S3Store) (p n : String) (σ2 : S3Store),
      S3Adapter.rename root σ p n = (σ2, true) →
        (S3Adapter.copy root σ p n).2 = true ∧
        (S3Adapter.delete root (S3Adapter.copy root σ p n).1 p).2 = true) ∧
    (∀ (root : String) (σ : S3Store) (p n : String),
      (S3Adapter.copy root σ p n).2 = false →
        S3Adapter.rename root σ p n = (σ, false) ∧
        S3Adapter.has root (S3Adapter.rename root σ p n).1 p = S3Adapter.has root σ p) ∧
    (∀ (root : String) (σ : S3Store) (p n : String),
      (BunAdapter.copy root σ p n).2 = false →
        BunAdapter.rename root σ p n = (σ, false)) ∧
    (∀ (fs : LocalFS) (p n : String),
      (BunLocalAdapter.rename fs p n).2 = false →
        (BunLocalAdapter.rename fs p n).1 = fs) := by
  refine ⟨?_, ?_, ?_, ?_⟩
  · intro root σ p n σ2 h
    simp only [S3Adapter.rename] at h
    by_cases hc : (S3Adapter.copy root σ p n).2 = true
    · rw [hc] at h
      simp only [Bool.not_true, Bool.false_eq_true, if_false] at h
      exact ⟨hc, by rw [h]⟩
    · have hcf : (S3Adapter.copy root σ p n).2 = false := by simpa using hc
      rw [hcf] at h
      simp only [Bool.not_false, if_true, Prod.mk.injEq] at h
      exact absurd h.2.symm (by simp)
  · intro root σ p n hcf
    have hr : S3Adapter.rename root σ p n = (σ, false) := by
      simp only [S3Adapter.rename, hcf, Bool.not_false, if_true]
    exact ⟨hr, by rw [hr]⟩
  · intro root σ p n hcf
    simp only [BunAdapter.rename, hcf, Bool.not_false, if_true]
  · intro fs p n h
    simp only [BunLocalAdapter.rename] at h ⊢
    cases hl : lookupFS fs (rtrimSlash p) with
    | none => simp [hl]
    | some node =>
      rw [hl] at h
      simp at h

/-- Witness for C2: a failed copy (missing source on an empty store) leaves
the store untouched, and a successful rename decomposes into a succeeding
copy and a succeeding delete. -/
theorem c2_witness :
    (S3Adapter.rename "" {} "a.txt" "b.txt" = ({}, false) ∧
      S3Adapter.has "" (S3Adapter.rename "" {} "a.txt" "b.txt").1 "a.txt"
        = S3Adapter.has "" {} "a.txt") ∧
    ((S3Adapter.copy "" { objects := [("a.txt", {})] } "a.txt" "b.txt").2 = true ∧
      (S3Adapter.delete ""
        (S3Adapter.copy "" { objects := [("a.txt", {})] } "a.txt" "b.txt").1 "a.txt").2 = true) :=
  ⟨c2_rename_copy_then_delete.2.1 "" {} "a.txt" "b.txt" (by decide),
   c2_rename_copy_then_delete.1 "" { objects := [("a.txt", {})] } "a.txt" "b.txt"
     (S3Adapter.rename "" { objects := [("a.txt", {})] } "a.txt" "b.txt").1 (by decide)⟩

/-! ## Claim C3 -/

/-- C3 counterexample: the claim that a `dir` entry never carries a `size`
field is false on the code — the Bun local adapter's `normalizeResponse`
assigns `size` from the stat before its directory early-return, so a
directory listing yields a `dir` entry with `size` present. -/
theorem c3_counterexample :
    ((BunLocalAdapter.listContents
        [("d", FsNode.dirNode 4096 0), ("d/sub", FsNode.dirNode 4096 0)]
        "d/" false).getD []).any
      (fun e => e.type == "dir" && !(e.size == none)) = true := by decide

/-- C3 as amended: every entry produced by the three normalizers and by the
local adapter's direct constructors is tagged exactly one of `file`/`dir`,
and a `dir` entry never carries `contents`; `dir` entries carry no `size`
either — except those produced by the Bun local adapter's
`normalizeResponse` (hence its `listContents`), which carry the stat size. -/
theorem c3_type_exclusivity_and_dir_fields :
    (∀ (root : String) (resp : S3Adapter.S3Response) (path : String),
      ((S3Adapter.normalizeResponse root resp path).type = "file" ∨
        (S3Adapter.normalizeResponse root resp path).type = "dir") ∧
      ¬((S3Adapter.normalizeResponse root resp path).type = "file" ∧
        (S3Adapter.normalizeResponse root resp path).type = "dir") ∧
      ((S3Adapter.normalizeResponse root resp path).type = "dir" →
        (S3Adapter.normalizeResponse root resp path).size = none ∧
        (S3Adapter.normalizeResponse root resp path).contents = none)) ∧
    (∀ (root : String) (resp : BunAdapter.BunResponse) (path : String),
      ((BunAdapter.normalizeResponse root resp path).type = "file" ∨
        (BunAdapter.normalizeResponse root resp path).type = "dir") ∧
      ¬((BunAdapter.normalizeResponse root resp path).type = "file" ∧
        (BunAdapter.normalizeResponse root resp path).type = "dir") ∧
      ((BunAdapter.normalizeResponse root resp path).type = "dir" →
        (BunAdapter.normalizeResponse root resp path).size = none ∧
        (BunAdapter.normalizeResponse root resp path).contents = none)) ∧
    (∀ (fs : LocalFS) (rawPath path : String) (e : Entry),
      BunLocalAdapter.normalizeResponse fs rawPath path = some e →
        (e.type = "file" ∨ e.type = "dir") ∧
        ¬(e.type = "file" ∧ e.type = "dir") ∧
        (e.type = "dir" → e.contents = none)) ∧
    (∀ (fs : LocalFS) (path contents : String) (v : Option String),
      (BunLocalAdapter.write fs path contents v).2.type = "file") ∧
    (∀ (fs : LocalFS) (dirname : String),
      (BunLocalAdapter.createDir fs dirname).2.type = "dir" ∧
      (BunLocalAdapter.createDir fs dirname).2.size = none ∧
      (BunLocalAdapter.createDir fs dirname).2.contents = none) ∧
    (∀ (fs : LocalFS) (path : String) (e : Entry),
      BunLocalAdapter.getMetadata fs path = .ok e →
        (e.type = "file" ∨ e.type = "dir") ∧
        (e.type = "dir" → e.size = none ∧ e.contents = none)) ∧
    (∀ (fs : LocalFS) (path : String) (e : Entry),
      BunLocalAdapter.read fs path = some e → e.type = "file") := by
  refine ⟨?_, ?_, ?_, ?_, ?_, ?_, ?_⟩
  · intro root resp path
    unfold S3Adapter.normalizeResponse
    by_cases h : endsWithSlash (S3Adapter.resolvePath root resp path) = true
    · simp [h, S3Adapter.baseEntry]
    · simp only [Bool.not_eq_true] at h
      simp [h, S3Adapter.baseEntry]
  · intro root resp path
    unfold BunAdapter.normalizeResponse
    by_cases h : endsWithSlash (BunAdapter.resolvePath root resp path) = true
    · simp [h, S3Adapter.baseEntry]
    · simp only [Bool.not_eq_true] at h
      simp [h, S3Adapter.baseEntry]
  · intro fs rawPath path e h
    simp only [BunLocalAdapter.normalizeResponse] at h
    cases hst : statFS fs (if path ≠ "" then path else rawPath) with
    | none => rw [hst] at h; exact absurd h (by simp)
    | some st =>
      rw [hst] at h
      by_cases hf : st.isFile = true
      · simp [hf] at h
        rw [← h]
        simp
      · have hff : st.isFile = false := by simpa using hf
        simp [hff] at h
        rw [← h]
        simp
  · intro fs path contents v
    rfl
  · intro fs dirname
    exact ⟨rfl, rfl, rfl⟩
  · intro fs path e h
    simp only [BunLocalAdapter.getMetadata] at h
    cases hst : statFS fs path with
    | none => rw [hst] at h; exact absurd h (by simp)
    | some st =>
      rw [hst] at h
      by_cases hf : st.isFile = true
      · simp [hf] at h
        rw [← h]
        simp
      · have hff : st.isFile = false := by simpa using hf
        simp [hff] at h
        rw [← h]
        simp
  · intro fs path e h
    simp only [BunLocalAdapter.read] at h
    cases hl : lookupFS fs (rtrimSlash path) with
    | none => rw [hl] at h; exact absurd h (by simp)
    | some node =>
      rw [hl] at h
      cases node with
      | fileNode c m =>
        simp at h
        rw [← h]
      | dirNode sz m => exact absurd h (by simp)

/-- Witness for C3: a concrete application of the amended theorem — an S3
`dir` entry has neither size nor contents. -/
theorem c3_witness :
    (S3Adapter.normalizeResponse "" { Key := some "x/" } "").size = none ∧
    (S3Adapter.normalizeResponse "" { Key := some "x/" } "").contents = none :=
  (c3_type_exclusivity_and_dir_fields.1 "" { Key := some "x/" } "").2.2 (by decide)

/-! ## Association-list helper lemmas -/

theorem assoc_find_filter_ne {β : Type} (l : List (String × β)) (k : String) :
    (l.filter (fun kv => !(kv.1 == k))).find? (fun kv => kv.1 == k) = none := by
  rw [List.find?_eq_none]
  intro kv hkv
  have h2 := (List.mem_filter.mp hkv).2
  simp only [Bool.not_eq_true'] at h2
  simp [h2]

theorem assoc_find_filter_notPre {β : Type} (l : List (String × β)) (q k : String)
    (hk : isPre q k = true) :
    (l.filter (fun kv => !(isPre q kv.1))).find? (fun kv => kv.1 == k) = none := by
  rw [List.find?_eq_none]
  intro kv hkv
  have h2 := (List.mem_filter.mp hkv).2
  intro hq
  have hk2 : kv.1 = k := by simpa using hq
  rw [hk2] at h2
  rw [hk] at h2
  simp at h2

/-! ## Claim C4 -/

/-- C4 counterexample: the claim that `read` returns `false` — not a thrown
exception — for a missing file is false on the code: the S3 adapter's catch
block rethrows, so reading a missing key throws the medium's NoSuchKey
error. -/
theorem c4_counterexample :
    S3Adapter.read "" {} "missing.txt" = Except.error S3Err.noSuchKey := rfl

/-- C4 as amended: `read` returns an Entry including `contents` when a file
exists at the path; the Bun local adapter returns `false` when the target
does not exist as a file, but the S3-backed adapters rethrow the medium
error for a missing key instead of returning `false`. -/
theorem c4_read_entry_or_error :
    (∀ (root : String) (σ : S3Store) (path : String) (o : S3Object),
      path ≠ "" →
      endsWithSlash path = false →
      isFaulty σ (applyPathPfxS3 root path) = false →
      lookupObj σ (applyPathPfxS3 root path) = some o →
      ∃ e : Entry, S3Adapter.read root σ path = .ok e ∧ e.contents = some o.contents) ∧
    (∀ (root : String) (σ : S3Store) (path : String),
      isFaulty σ (applyPathPfxS3 root path) = false →
      lookupObj σ (applyPathPfxS3 root path) = none →
      S3Adapter.read root σ path = .error S3Err.noSuchKey) ∧
    (∀ (root : String) (σ : S3Store) (path : String),
      isFaulty σ (applyPathPfxS3 root path) = false →
      lookupObj σ (applyPathPfxS3 root path) = none →
      BunAdapter.read root σ path = .error S3Err.noSuchKey) ∧
    (∀ (fs : LocalFS) (path : String),
      lookupFS fs (rtrimSlash path) = none → BunLocalAdapter.read fs path = none) ∧
    (∀ (fs : LocalFS) (path c : String) (m : Nat),
      lookupFS fs (rtrimSlash path) = some (FsNode.fileNode c m) →
      BunLocalAdapter.read fs path
        = some { path := path, type := "file", contents := some c }) := by
  refine ⟨?_, ?_, ?_, ?_, ?_⟩
  · intro root σ path o hne hs hf hl
    have hres : S3Adapter.resolvePath root
        { Body := some o.contents, ContentLength := some (byteLen o.contents),
          ContentType := some o.contentType, LastModified := some o.lastModifiedMs } path
        = path := by
      simp [S3Adapter.resolvePath, hne]
    have hread : S3Adapter.read root σ path
        = .ok (S3Adapter.normalizeResponse root
            { Body := some o.contents, ContentLength := some (byteLen o.contents),
              ContentType := some o.contentType, LastModified := some o.lastModifiedMs } path) := by
      simp [S3Adapter.read, hf, hl]
    refine ⟨_, hread, ?_⟩
    simp only [S3Adapter.normalizeResponse, hres, hs, Bool.false_eq_true, if_false]
  · intro root σ path hf hl
    simp [S3Adapter.read, hf, hl]
  · intro root σ path hf hl
    simp [BunAdapter.read, hf, hl]
  · intro fs path hl
    simp [BunLocalAdapter.read, hl]
  · intro fs path c m hl
    simp [BunLocalAdapter.read, hl]

/-- Witness for C4: the amended theorem applied at concrete stores — a
successful read of an existing object carries its contents, and the local
read of a missing path is `false`. -/
theorem c4_witness :
    (∃ e : Entry,
      S3Adapter.read "" { objects := [("a.txt", { contents := "hello" })] } "a.txt" = .ok e ∧
        e.contents = some "hello") ∧
    BunLocalAdapter.read [] "nope.txt" = none :=
  ⟨c4_read_entry_or_error.1 "" { objects := [("a.txt", { contents := "hello" })] } "a.txt"
      { contents := "hello" } (by decide) (by decide) (by decide) (by decide),
   c4_read_entry_or_error.2.2.2.1 [] "nope.txt" (by decide)⟩

/-! ## Claim C5 -/

/-- C5 counterexample: the claim that `delete` returns `false` when the
target does not exist is false on the code — the S3 medium delete is
idempotent, so deleting a missing key reports `true`. -/
theorem c5_counterexample :
    S3Adapter.delete "" {} "test/1.txt" = ({}, true) := by decide

/-- C5 as amended: `delete` of a trailing-separator path returns `false`
without mutating storage, a successful removal returns `true` and the target
is gone afterwards, and the embedded operation is total (never throws); a
missing target yields `false` on the local adapter but `true` on the
S3-backed adapters, whose medium delete is idempotent. -/
theorem c5_delete_contract :
    (∀ (root : String) (σ : S3Store) (path : String),
      endsWithSlash path = true → S3Adapter.delete root σ path = (σ, false)) ∧
    (∀ (root : String) (σ : S3Store) (path : String),
      endsWithSlash path = false →
      isFaulty σ (applyPathPfxS3 root path) = false →
      (S3Adapter.delete root σ path).2 = true ∧
      lookupObj (S3Adapter.delete root σ path).1 (applyPathPfxS3 root path) = none) ∧
    (∀ (root : String) (σ : S3Store) (path : String),
      endsWithSlash path = true → BunAdapter.delete root σ path = (σ, false)) ∧
    (∀ (fs : LocalFS) (path : String),
      lookupFS fs path = none → BunLocalAdapter.delete fs path = (fs, false)) ∧
    (∀ (fs : LocalFS) (path c : String) (m : Nat),
      endsWithSlash path = false →
      lookupFS fs path = some (FsNode.fileNode c m) →
      (BunLocalAdapter.delete fs path).2 = true ∧
      lookupFS (BunLocalAdapter.delete fs path).1 path = none) := by
  refine ⟨?_, ?_, ?_, ?_, ?_⟩
  · intro root σ path h
    simp [S3Adapter.delete, h]
  · intro root σ path hs hf
    refine ⟨by simp [S3Adapter.delete, hs, hf], ?_⟩
    simp only [S3Adapter.delete, hs, Bool.false_eq_true, if_false, hf]
    simp only [lookupObj, removeObj]
    rw [assoc_find_filter_ne]
    rfl
  · intro root σ path h
    simp [BunAdapter.delete, h]
  · intro fs path hl
    unfold BunLocalAdapter.delete
    by_cases hs : endsWithSlash path = true
    · simp [hs]
    · have hsf : endsWithSlash path = false := by simpa using hs
      simp [hsf, hl]
  · intro fs path c m hs hl
    refine ⟨by simp [BunLocalAdapter.delete, hs, hl], ?_⟩
    simp only [BunLocalAdapter.delete, hs, Bool.false_eq_true, if_false, hl]
    simp only [lookupFS]
    rw [assoc_find_filter_ne]
    rfl

/-- Witness for C5: the amended theorem applied concretely — a directory
path is refused without mutation, and deleting an existing file removes
it. -/
theorem c5_witness :
    S3Adapter.delete "" { objects := [("test/1.txt", {})] } "test/" =
      ({ objects := [("test/1.txt", {})] }, false) ∧
    ((BunLocalAdapter.delete [("test/1.txt", FsNode.fileNode "test" 0)] "test/1.txt").2 = true ∧
      lookupFS (BunLocalAdapter.delete [("test/1.txt", FsNode.fileNode "test" 0)] "test/1.txt").1
        "test/1.txt" = none) :=
  ⟨c5_delete_contract.1 "" { objects := [("test/1.txt", {})] } "test/" (by decide),
   c5_delete_contract.2.2.2.2 [("test/1.txt", FsNode.fileNode "test" 0)] "test/1.txt" "test" 0
     (by decide) (by decide)⟩

/-! ## Claim C6 -/

/-- C6 counterexample: the claim that `deleteDir` returns `true` even when
the directory does not exist is false on the code — the Bun local adapter
explicitly returns `false` when the location is not an existing
directory. -/
theorem c6_counterexample :
    BunLocalAdapter.deleteDir [] "x" = ([], false) := by decide

/-- The S3-flavoured `deleteDir` against a fault-free store: success, and no
key under the directory prefix survives. -/
theorem s3_deleteDir_spec (root : String) (σ : S3Store) (d : String)
    (hfa : σ.faulty = []) :
    (S3Adapter.deleteDir root σ d).2 = true ∧
    (∀ k, isPre (rtrimSlash (applyPathPfxS3 root d) ++ "/") k = true →
      lookupObj (S3Adapter.deleteDir root σ d).1 k = none) := by
  have hany : (σ.objects.filter
      (fun kv => isPre (rtrimSlash (applyPathPfxS3 root d) ++ "/") kv.1)).any
        (fun kv => isFaulty σ kv.1) = false := by
    simp [isFaulty, hfa]
  by_cases he : (σ.objects.filter
      (fun kv => isPre (rtrimSlash (applyPathPfxS3 root d) ++ "/") kv.1)).isEmpty = true
  · have hnil := List.isEmpty_iff.mp he
    have hall := List.filter_eq_nil_iff.mp hnil
    refine ⟨by simp [S3Adapter.deleteDir, he], ?_⟩
    intro k hk
    have hres : (S3Adapter.deleteDir root σ d).1 = σ := by
      simp [S3Adapter.deleteDir, he]
    rw [hres]
    cases hlook : lookupObj σ k with
    | none => rfl
    | some o =>
      exfalso
      unfold lookupObj at hlook
      obtain ⟨kv, hfind, -⟩ := Option.map_eq_some'.mp hlook
      have hkv1 : kv.1 = k := by simpa using List.find?_some hfind
      exact (hall kv (List.mem_of_find?_eq_some hfind)) (by rw [hkv1]; exact hk)
  · have hef : (σ.objects.filter
        (fun kv => isPre (rtrimSlash (applyPathPfxS3 root d) ++ "/") kv.1)).isEmpty = false := by
      simpa using he
    refine ⟨by simp [S3Adapter.deleteDir, hef, hany], ?_⟩
    intro k hk
    simp only [S3Adapter.deleteDir, hef, Bool.false_eq_true, if_false, hany]
    simp only [lookupObj]
    rw [assoc_find_filter_notPre _ _ _ hk]
    rfl

/-- The Bun S3 `deleteDir` is the same algorithm as the S3 one. -/
theorem bun_deleteDir_eq : BunAdapter.deleteDir = S3Adapter.deleteDir := rfl

/-- C6 as amended: the S3-backed `deleteDir` removes every key under the
directory prefix and returns `true`, including for a directory that does not
exist at all; the Bun local adapter also removes the whole subtree and
returns `true` for an existing directory, but returns `false` when the
directory does not exist. -/
theorem c6_deleteDir_contract :
    (∀ (root : String) (σ : S3Store) (d : String),
      σ.faulty = [] →
      (S3Adapter.deleteDir root σ d).2 = true ∧
      (∀ k, isPre (rtrimSlash (applyPathPfxS3 root d) ++ "/") k = true →
        lookupObj (S3Adapter.deleteDir root σ d).1 k = none)) ∧
    (∀ (root : String) (σ : S3Store) (d : String),
      σ.faulty = [] →
      (BunAdapter.deleteDir root σ d).2 = true ∧
      (∀ k, isPre (rtrimSlash (applyPathPfxS3 root d) ++ "/") k = true →
        lookupObj (BunAdapter.deleteDir root σ d).1 k = none)) ∧
    (∀ (fs : LocalFS) (p : String),
      BunLocalAdapter.isDir fs p = false → BunLocalAdapter.deleteDir fs p = (fs, false)) ∧
    (∀ (fs : LocalFS) (p : String),
      BunLocalAdapter.isDir fs p = true →
      (BunLocalAdapter.deleteDir fs p).2 = true ∧
      (∀ k, isPre (rtrimSlash p ++ "/") k = true →
        lookupFS (BunLocalAdapter.deleteDir fs p).1 k = none)) := by
  refine ⟨?_, ?_, ?_, ?_⟩
  · intro root σ d hfa
    exact s3_deleteDir_spec root σ d hfa
  · intro root σ d hfa
    rw [bun_deleteDir_eq]
    exact s3_deleteDir_spec root σ d hfa
  · intro fs p h
    simp [BunLocalAdapter.deleteDir, h]
  · intro fs p h
    refine ⟨by simp [BunLocalAdapter.deleteDir, h], ?_⟩
    intro k hk
    simp only [BunLocalAdapter.deleteDir, h, Bool.not_true, Bool.false_eq_true, if_false]
    simp only [lookupFS]
    have hfind : (List.find? (fun kv => kv.1 == k)
        (List.filter
          (fun kv => !(kv.1 == rtrimSlash p) && !(isPre (rtrimSlash p ++ "/") kv.1)) fs))
        = none := by
      rw [List.find?_eq_none]
      intro kv hkv
      have h2 := (List.mem_filter.mp hkv).2
      intro hq
      have hk2 : kv.1 = k := by simpa using hq
      rw [hk2, hk] at h2
      simp at h2
    rw [hfind]
    rfl

/-- Witness for C6: the amended theorem applied concretely — deleting a
missing directory on the S3 adapter succeeds, and deleting an existing local
directory removes its descendants. -/
theorem c6_witness :
    (S3Adapter.deleteDir "" { objects := [("other.txt", {})] } "gone").2 = true ∧
    ((BunLocalAdapter.deleteDir
        [("d", FsNode.dirNode 0 0), ("d/x.txt", FsNode.fileNode "x" 0)] "d").2 = true ∧
      lookupFS (BunLocalAdapter.deleteDir
        [("d", FsNode.dirNode 0 0), ("d/x.txt", FsNode.fileNode "x" 0)] "d").1
        "d/x.txt" = none) :=
  ⟨(c6_deleteDir_contract.1 "" { objects := [("other.txt", {})] } "gone" rfl).1,
   ⟨(c6_deleteDir_contract.2.2.2
        [("d", FsNode.dirNode 0 0), ("d/x.txt", FsNode.fileNode "x" 0)] "d" (by decide)).1,
    (c6_deleteDir_contract.2.2.2
        [("d", FsNode.dirNode 0 0), ("d/x.txt", FsNode.fileNode "x" 0)] "d" (by decide)).2
      "d/x.txt" (by decide)⟩⟩

/-! ## Claim C7 -/

/-- C7 counterexample: the claim that `getSize` returns the relevant Entry
subset when the target exists is false on the code — `S3Adapter.getSize`
throws `Not implemented yet` unconditionally, even for an existing
object. -/
theorem c7_counterexample :
    S3Adapter.getSize "" { objects := [("a.txt", {})] } "a.txt"
      = Except.error "Not implemented yet" := rfl

/-- C7 as amended: `getMetadata` returns the normalized Entry when the head
call succeeds and `false` whenever it throws — for a missing target but
equally for any other medium fault, which the catch-all collapses to `false`
instead of propagating; `BunAdapter`'s size/timestamp/mimetype derivatives
return the corresponding subset of the metadata or `false` alongside it,
while `S3Adapter`'s derivatives throw `Not implemented yet`
unconditionally. -/
theorem c7_metadata_contract :
    (∀ (root : String) (σ : S3Store) (path : String),
      (isFaulty σ (applyPathPfxS3 root path) = true →
        S3Adapter.getMetadata root σ path = none) ∧
      (lookupObj σ (applyPathPfxS3 root path) = none →
        S3Adapter.getMetadata root σ path = none) ∧
      (∀ o, isFaulty σ (applyPathPfxS3 root path) = false →
        lookupObj σ (applyPathPfxS3 root path) = some o →
        (S3Adapter.getMetadata root σ path).isSome = true)) ∧
    (∀ (root : String) (σ : S3Store) (path : String),
      S3Adapter.getSize root σ path = Except.error "Not implemented yet" ∧
      S3Adapter.getTimestamp root σ path = Except.error "Not implemented yet" ∧
      S3Adapter.getMimetype root σ path = Except.error "Not implemented yet") ∧
    (∀ (root : String) (σ : S3Store) (path : String),
      (isFaulty σ (applyPathPfxS3 root path) = true →
        BunAdapter.getMetadata root σ path = none) ∧
      (lookupObj σ (applyPathPfxS3 root path) = none →
        BunAdapter.getMetadata root σ path = none)) ∧
    (∀ (root : String) (σ : S3Store) (path : String) (m : Entry),
      BunAdapter.getMetadata root σ path = some m →
      BunAdapter.getSize root σ path = some m.size ∧
      BunAdapter.getTimestamp root σ path = some m.timestamp ∧
      BunAdapter.getMimetype root σ path = some (mimeGetType path)) ∧
    (∀ (root : String) (σ : S3Store) (path : String),
      BunAdapter.getMetadata root σ path = none →
      BunAdapter.getSize root σ path = none ∧
      BunAdapter.getTimestamp root σ path = none ∧
      BunAdapter.getMimetype root σ path = none) := by
  refine ⟨?_, ?_, ?_, ?_, ?_⟩
  · intro root σ path
    refine ⟨?_, ?_, ?_⟩
    · intro h
      simp [S3Adapter.getMetadata, h]
    · intro h
      by_cases hf : isFaulty σ (applyPathPfxS3 root path) = true
      · simp [S3Adapter.getMetadata, hf]
      · have hf2 : isFaulty σ (applyPathPfxS3 root path) = false := by simpa using hf
        simp [S3Adapter.getMetadata, hf2, h]
    · intro o hf hl
      simp [S3Adapter.getMetadata, hf, hl]
  · intro root σ path
    exact ⟨rfl, rfl, rfl⟩
  · intro root σ path
    refine ⟨?_, ?_⟩
    · intro h
      simp [BunAdapter.getMetadata, h]
    · intro h
      by_cases hf : isFaulty σ (applyPathPfxS3 root path) = true
      · simp [BunAdapter.getMetadata, hf]
      · have hf2 : isFaulty σ (applyPathPfxS3 root path) = false := by simpa using hf
        simp [BunAdapter.getMetadata, hf2, h]
  · intro root σ path m h
    exact ⟨by simp [BunAdapter.getSize, h], by simp [BunAdapter.getTimestamp, h],
      by simp [BunAdapter.getMimetype, h]⟩
  · intro root σ path h
    exact ⟨by simp [BunAdapter.getSize, h], by simp [BunAdapter.getTimestamp, h],
      by simp [BunAdapter.getMimetype, h]⟩

/-- Witness for C7: the amended theorem applied concretely — a faulty key
(permission denial) collapses to `false` exactly like a missing one, and an
existing object yields metadata. -/
theorem c7_witness :
    S3Adapter.getMetadata "" { objects := [("a.txt", {})], faulty := ["a.txt"] } "a.txt"
      = none ∧
    (S3Adapter.getMetadata "" { objects := [("a.txt", {})] } "a.txt").isSome = true :=
  ⟨(c7_metadata_contract.1 "" { objects := [("a.txt", {})], faulty := ["a.txt"] } "a.txt").1
      (by decide),
   (c7_metadata_contract.1 "" { objects := [("a.txt", {})] } "a.txt").2.2 {}
      (by decide) (by decide)⟩

/-! ## Claim C8 -/

theorem lookupObj_putObj (σ : S3Store) (k : String) (o : S3Object) :
    lookupObj (putObj σ k o) k = some o := by
  simp [lookupObj, putObj, List.find?]

/-- `getRawVisibility` only ever reports `public` or `private`. -/
theorem s3_rawVis_cases (root : String) (σ : S3Store) (p : String) :
    S3Adapter.getRawVisibility root σ p = "public" ∨
    S3Adapter.getRawVisibility root σ p = "private" := by
  unfold S3Adapter.getRawVisibility
  by_cases hf : isFaulty σ (applyPathPfxS3 root p) = true
  · simp [hf]
  · have hf2 : isFaulty σ (applyPathPfxS3 root p) = false := by simpa using hf
    simp only [hf2, Bool.false_eq_true, if_false]
    cases lookupObj σ (applyPathPfxS3 root p) with
    | none => simp
    | some o =>
      simp
      exact Classical.em _

/-- Decomposition of a successful S3 `copy`. -/
theorem s3_copy_ok (root : String) (σ σ2 : S3Store) (p n : String)
    (h : S3Adapter.copy root σ p n = (σ2, true)) :
    isFaulty σ (applyPathPfxS3 root p) = false ∧
    isFaulty σ (applyPathPfxS3 root n) = false ∧
    ∃ o, lookupObj σ (applyPathPfxS3 root p) = some o ∧
      σ2 = putObj σ (applyPathPfxS3 root n)
        { o with acl := if S3Adapter.getRawVisibility root σ p = "public"
                        then "public-read" else "private" } := by
  simp only [S3Adapter.copy] at h
  by_cases hor : (isFaulty σ (applyPathPfxS3 root p)
      || isFaulty σ (applyPathPfxS3 root n)) = true
  · rw [hor] at h
    simp at h
  · have hor2 : (isFaulty σ (applyPathPfxS3 root p)
        || isFaulty σ (applyPathPfxS3 root n)) = false := by simpa using hor
    obtain ⟨hp, hn⟩ := Bool.or_eq_false_iff.mp hor2
    rw [hor2] at h
    simp only [Bool.false_eq_true, if_false] at h
    cases hl : lookupObj σ (applyPathPfxS3 root p) with
    | none =>
      rw [hl] at h
      simp at h
    | some o =>
      rw [hl] at h
      simp only [Prod.mk.injEq] at h
      exact ⟨hp, hn, o, rfl, h.1.symm⟩

/-- The visibility the adapter reports for a freshly put object. -/
theorem s3_getVis_putObj (root : String) (σ : S3Store) (n : String) (o : S3Object)
    (hf : isFaulty σ (applyPathPfxS3 root n) = false) :
    S3Adapter.getVisibility root (putObj σ (applyPathPfxS3 root n) o) n
      = (if (grantsOf o.acl).contains (PUBLIC_GRANT_URI, "READ") then "public"
         else "private") := by
  unfold S3Adapter.getVisibility S3Adapter.getRawVisibility
  have hf2 : isFaulty (putObj σ (applyPathPfxS3 root n) o) (applyPathPfxS3 root n)
      = false := hf
  simp [hf2, lookupObj_putObj]

/-- C8: a successful `copy` leaves the destination reporting the same
visibility `getVisibility` reported for the source — for the S3 adapter via
the ACL it computes from the source's grants, and for the Bun adapter
trivially, since its `getVisibility` reports the fixed default. -/
theorem c8_copy_preserves_visibility :
    (∀ (root : String) (σ σ2 : S3Store) (p n : String),
      S3Adapter.copy root σ p n = (σ2, true) →
      S3Adapter.getVisibility root σ2 n = S3Adapter.getVisibility root σ p) ∧
    (∀ (root : String) (σ σ2 : S3Store) (p n : String),
      BunAdapter.copy root σ p n = (σ2, true) →
      BunAdapter.getVisibility root σ2 n = BunAdapter.getVisibility root σ p) := by
  constructor
  · intro root σ σ2 p n h
    obtain ⟨hpf, hnf, o, hlo, hσ2⟩ := s3_copy_ok root σ σ2 p n h
    subst hσ2
    rw [s3_getVis_putObj root σ n _ hnf]
    unfold S3Adapter.getVisibility
    rcases s3_rawVis_cases root σ p with hv | hv <;> rw [hv] <;>
      simp [grantsOf, PUBLIC_GRANT_URI, List.contains]
  · intro root σ σ2 p n h
    rfl

/-- Witness for C8: a concrete successful copy of a public object. -/
theorem c8_witness :
    S3Adapter.getVisibility ""
        (S3Adapter.copy "" { objects := [("a.txt", { acl := "public-read" })] }
          "a.txt" "b.txt").1 "b.txt"
      = S3Adapter.getVisibility "" { objects := [("a.txt", { acl := "public-read" })] }
          "a.txt" :=
  c8_copy_preserves_visibility.1 "" { objects := [("a.txt", { acl := "public-read" })] }
    (S3Adapter.copy "" { objects := [("a.txt", { acl := "public-read" })] }
      "a.txt" "b.txt").1 "a.txt" "b.txt" (by decide)

/-! ## Claim C9 -/

theorem s3_normalize_timestamp (root : String) (resp : S3Adapter.S3Response)
    (path : String) :
    (S3Adapter.normalizeResponse root resp path).timestamp
      = resp.LastModified.map (fun ms => (ms : Rat) / 1000) := by
  unfold S3Adapter.normalizeResponse
  by_cases h : endsWithSlash (S3Adapter.resolvePath root resp path) = true
  · simp [h, S3Adapter.baseEntry]
  · simp only [Bool.not_eq_true] at h
    simp [h, S3Adapter.baseEntry]

theorem bun_normalize_timestamp (root : String) (resp : BunAdapter.BunResponse)
    (path : String) (ms : Nat) (hms : resp.lastModified = some ms) :
    (BunAdapter.normalizeResponse root resp path).timestamp
      = some ((ms : Rat) / 1000) := by
  unfold BunAdapter.normalizeResponse
  rw [hms]
  by_cases h : endsWithSlash (BunAdapter.resolvePath root resp path) = true
  · simp [h, S3Adapter.baseEntry]
  · simp only [Bool.not_eq_true] at h
    simp [h, S3Adapter.baseEntry]

theorem whole_ms_is_integer_seconds (ms : Nat) (h : 1000 ∣ ms) :
    ∃ k : Int, (ms : Rat) / 1000 = (k : Rat) := by
  obtain ⟨t, ht⟩ := h
  refine ⟨(t : Int), ?_⟩
  rw [ht]
  push_cast
  field_simp

/-- C9 counterexample: the claim that every normalized timestamp is an
integer number of epoch seconds is false on the code — the S3 adapter
computes `getTime() / 1000` without rounding, so a last-modified value of
500 milliseconds normalizes to the non-integer 1/2. -/
theorem c9_counterexample :
    (S3Adapter.normalizeResponse ""
        { Key := some "a.txt", LastModified := some 500 } "").timestamp
      = some (((500 : Nat) : Rat) / 1000) ∧
    ¬ ∃ k : Int, (((500 : Nat) : Rat) / 1000) = (k : Rat) := by
  constructor
  · rw [s3_normalize_timestamp]
    rfl
  · rintro ⟨k, hk⟩
    rw [div_eq_iff (by norm_num : (1000 : Rat) ≠ 0)] at hk
    have h2 : (500 : Int) = k * 1000 := by exact_mod_cast hk
    omega

/-- C9 as amended: the Bun local adapter's timestamps are always an integer
number of seconds (`Math.round(mtimeMs / 1000)`); the S3 and Bun S3
normalizers compute `getTime() / 1000` without rounding, which is an integer
exactly when the backend's last-modified value is a whole number of
seconds. -/
theorem c9_timestamp_seconds :
    (∀ (root : String) (resp : S3Adapter.S3Response) (path : String) (ms : Nat),
      resp.LastModified = some ms →
      (S3Adapter.normalizeResponse root resp path).timestamp = some ((ms : Rat) / 1000) ∧
      (1000 ∣ ms →
        ∃ k : Int, (S3Adapter.normalizeResponse root resp path).timestamp
          = some ((k : Int) : Rat))) ∧
    (∀ (root : String) (resp : BunAdapter.BunResponse) (path : String) (ms : Nat),
      resp.lastModified = some ms →
      (BunAdapter.normalizeResponse root resp path).timestamp = some ((ms : Rat) / 1000) ∧
      (1000 ∣ ms →
        ∃ k : Int, (BunAdapter.normalizeResponse root resp path).timestamp
          = some ((k : Int) : Rat))) ∧
    (∀ (fs : LocalFS) (rawPath path : String) (e : Entry),
      BunLocalAdapter.normalizeResponse fs rawPath path = some e →
      ∃ k : Int, e.timestamp = some ((k : Int) : Rat)) ∧
    (∀ (fs : LocalFS) (path : String) (e : Entry),
      BunLocalAdapter.getMetadata fs path = .ok e →
      ∃ k : Int, e.timestamp = some ((k : Int) : Rat)) := by
  refine ⟨?_, ?_, ?_, ?_⟩
  · intro root resp path ms hms
    have ht : (S3Adapter.normalizeResponse root resp path).timestamp
        = some ((ms : Rat) / 1000) := by
      rw [s3_normalize_timestamp, hms]
      rfl
    refine ⟨ht, fun hd => ?_⟩
    obtain ⟨k, hk⟩ := whole_ms_is_integer_seconds ms hd
    exact ⟨k, by rw [ht, hk]⟩
  · intro root resp path ms hms
    have ht := bun_normalize_timestamp root resp path ms hms
    refine ⟨ht, fun hd => ?_⟩
    obtain ⟨k, hk⟩ := whole_ms_is_integer_seconds ms hd
    exact ⟨k, by rw [ht, hk]⟩
  · intro fs rawPath path e h
    simp only [BunLocalAdapter.normalizeResponse] at h
    cases hst : statFS fs (if path ≠ "" then path else rawPath) with
    | none => rw [hst] at h; exact absurd h (by simp)
    | some st =>
      rw [hst] at h
      refine ⟨jsRound ((st.mtimeMs : Rat) / 1000), ?_⟩
      by_cases hf : st.isFile = true
      · simp [hf] at h
        rw [← h]
      · have hff : st.isFile = false := by simpa using hf
        simp [hff] at h
        rw [← h]
  · intro fs path e h
    simp only [BunLocalAdapter.getMetadata] at h
    cases hst : statFS fs path with
    | none => rw [hst] at h; exact absurd h (by simp)
    | some st =>
      rw [hst] at h
      refine ⟨jsRound ((st.mtimeMs : Rat) / 1000), ?_⟩
      by_cases hf : st.isFile = true
      · simp [hf] at h
        rw [← h]
      · have hff : st.isFile = false := by simpa using hf
        simp [hff] at h
        rw [← h]

/-- Witness for C9: a whole-second last-modified value normalizes to an
integer timestamp. -/
theorem c9_witness :
    ∃ k : Int,
      (S3Adapter.normalizeResponse ""
          { Key := some "a.txt", LastModified := some 2000 } "").timestamp
        = some ((k : Int) : Rat) :=
  (c9_timestamp_seconds.1 "" { Key := some "a.txt", LastModified := some 2000 } ""
      2000 rfl).2 (by norm_num)

/-! ## Claim C10 -/

/-- C10: the claim that every operation is stateless request/response is
right and the code is wrong — `S3Adapter.getOptionsFromConfig` aliases
`this.options` instead of copying it, so the visibility/ACL passed to one
`write` leaks into the adapter instance and a later `write` with an empty
config still uploads with the earlier call's ACL (`public-read`) instead of
the fresh-instance default (`private`); unrecognized config keys are
correctly ignored, and the Bun adapter's rewritten `getOptionsFromConfig`
builds a fresh object instead. -/
theorem c10_config_statefulness_bug :
    (S3Adapter.uploadAcl {} { visibility := some "public" }).2 = "public-read" ∧
    (S3Adapter.uploadAcl (S3Adapter.uploadAcl {} { visibility := some "public" }).1 {}).2
      = "public-read" ∧
    (S3Adapter.uploadAcl {} {}).2 = "private" ∧
    (S3Adapter.uploadAcl {} { extra := [("SomeUnknownKey", "v")] }).2 = "private" ∧
    S3Adapter.getOptionsFromConfig {} { extra := [("SomeUnknownKey", "v")] } = {} ∧
    (BunAdapter.getOptionsFromConfig { visibility := some "public" }).acl = none :=
  ⟨by decide, by decide, by decide, by decide, by decide, by decide⟩

end NodeFs
